import Mathlib

/-!
# sonar_image_proc: the post-processing nodelet and the remap cache

A shallow embedding of

* `ros/src/sonar_postprocessor_nodelet.cpp` (the callback that log-compresses a
  32-bit sonar image to 8 bits), and
* the `SonarDrawer` class declared in `include/sonar_image_proc/SonarDrawer.h`
  (the rectangular image builder and the single-slot remap cache).

Numbers of type `double`/`float` are read as elements of a linear ordered field
`K`, every arithmetic operation being exact; the numeric constants keep the value
the source gives them (a `float` constant is the single-precision number nearest
its decimal literal).  The library function `log` is a parameter of the model.
-/

set_option autoImplicit false

namespace SonarImageProc

/-! ## Messages (`acoustic_msgs`) -/

/-- Constant `DTYPE_UINT8` of `acoustic_msgs/SonarImageData`. -/
def DTYPE_UINT8 : Nat := 0

/-- Constant `DTYPE_UINT32` of `acoustic_msgs/SonarImageData`. -/
def DTYPE_UINT32 : Nat := 4

/-- Message `acoustic_msgs/SonarImageData`; `data` is the byte vector. -/
structure SonarImageData where
  is_bigendian : Bool
  dtype : Nat
  beam_count : Nat
  data : List Nat
deriving DecidableEq, Repr

/-- Message `acoustic_msgs/ProjectedSonarImage`.  The callback only touches
`image`; the other fields (`header`, `ping_info`, `beam_directions`, `ranges`)
are kept together in `info`, of an arbitrary type. -/
structure ProjectedSonarImage (Info : Type) where
  info : Info
  image : SonarImageData
deriving DecidableEq, Repr

/-! ## The message interface (`sonar_image_msg_interface.h`, taken as given) -/

/-- Index pair `AzimuthRangeIndices(a_idx, r_idx)`. -/
structure AzimuthRangeIndices where
  azimuth : Nat
  range : Nat
deriving DecidableEq, Repr

/-- The part of `SonarImageMsgInterface` the callback uses: the two counts and
the accessor of a cell.  `cell` is the raw accessor; the `uint32_t` it returns is
`intensity_uint32` below.  The counts are sizes of arrays of a message, which its
32-bit length fields bound, so the `unsigned int` loop counters do not wrap. -/
structure SonarImageMsgInterface where
  nRanges : Nat
  nAzimuth : Nat
  cell : AzimuthRangeIndices → Nat

/-- Largest `uint32_t`. -/
def UINT32_MAX : Nat := 4294967295

/-- Largest `uint8_t`. -/
def UINT8_MAX : Nat := 255

/-- Accessor `interface.intensity_uint32(idx)`: a value of type `uint32_t`. -/
def SonarImageMsgInterface.intensity_uint32 (ifc : SonarImageMsgInterface)
    (idx : AzimuthRangeIndices) : Nat :=
  ifc.cell idx % (UINT32_MAX + 1)

/-! ## The nodelet -/

/-- Data members of `SonarPostprocessorNodelet` that hold parameters
(`float gain_, gamma_`), as set by `onInit`. -/
structure SonarPostprocessorNodelet (K : Type) where
  gain_ : K
  gamma_ : K

section Callback

variable {K : Type} [LinearOrderedField K]

/-- Local `const float vmax = 1.0`. -/
def vmax : K := 1

/-- Local `const float threshold = 0.74`: the single-precision number nearest
`0.74`, which is `12415140 / 2^24`. -/
def threshold : K := 12415140 / 16777216

/-- Line 70: `log(std::max((uint)1, intensity)) / log(UINT32_MAX)`. -/
def normalized (log : K → K) (intensity : Nat) : K :=
  log ((max 1 intensity : Nat) : K) / log ((UINT32_MAX : Nat) : K)

/-- Lines 82-83: thresholding, then `std::min(1.0, std::max(0.0, v))`. -/
def compress (v : K) : K :=
  let v := (v - threshold) / (vmax - threshold)
  min 1 (max 0 v)

/-- Argument of `push_back` on line 84, before its conversion to `uint8_t`. -/
def scaled (log : K → K) (intensity : Nat) : K :=
  ((UINT8_MAX : Nat) : K) * compress (normalized log intensity)

variable [FloorRing K]

/-- Implicit conversion of a `double` to `uint8_t` done by `push_back`:
truncation of the fractional part (the value is never negative here). -/
def toUInt8 (x : K) : Nat := ⌊x⌋₊ % (UINT8_MAX + 1)

/-- Byte pushed for a cell of the given intensity. -/
def cellByte (log : K → K) (intensity : Nat) : Nat :=
  toUInt8 (scaled log intensity)

/-- Locals changed by the loops: the output vector and `logmin`, `logmax`
(declared without a value, hence `none` until first assigned). -/
structure LoopState (K : Type) where
  data : List Nat
  logmin : Option K
  logmax : Option K

/-- Body of the inner loop (lines 63-84) for the cell `(a_idx, r_idx)`. -/
def cellStep (log : K → K) (ifc : SonarImageMsgInterface) (r_idx a_idx : Nat)
    (s : LoopState K) : LoopState K :=
  let idx : AzimuthRangeIndices := ⟨a_idx, r_idx⟩
  let intensity := ifc.intensity_uint32 idx
  let v := normalized log intensity
  let logmin := if r_idx = 0 ∧ a_idx = 0 then some v else s.logmin.map (fun m => min v m)
  let logmax := if r_idx = 0 ∧ a_idx = 0 then some v else s.logmax.map (fun m => max v m)
  { data := s.data ++ [toUInt8 (((UINT8_MAX : Nat) : K) * compress v)],
    logmin := logmin, logmax := logmax }

/-- Inner loop `for (a_idx = 0; a_idx < interface.nAzimuth(); ++a_idx)`. -/
def azimuthLoop (log : K → K) (ifc : SonarImageMsgInterface) (r_idx : Nat)
    (s : LoopState K) : LoopState K :=
  (List.range ifc.nAzimuth).foldl (fun s a_idx => cellStep log ifc r_idx a_idx s) s

/-- Outer loop `for (r_idx = 0; r_idx < interface.nRanges(); ++r_idx)`. -/
def rangeLoop (log : K → K) (ifc : SonarImageMsgInterface) (s : LoopState K) :
    LoopState K :=
  (List.range ifc.nRanges).foldl (fun s r_idx => azimuthLoop log ifc r_idx s) s

/-- The copy `out` of the message after lines 51-55: `dtype` set, `data` cleared. -/
def clearedCopy {Info : Type} (msg : ProjectedSonarImage Info) : ProjectedSonarImage Info :=
  let out := msg
  let out := { out with image := { out.image with dtype := DTYPE_UINT8 } }
  { out with image := { out.image with data := [] } }

/-- Method `sonarImageCallback` with the interface object already built; the
result is the list of messages handed to `pubSonarImage_.publish`.  The unused
local `dr` and the `reserve` call (capacity only) leave no trace in it. -/
def sonarImageCallbackWith {Info : Type} (log : K → K) (_node : SonarPostprocessorNodelet K)
    (interface : SonarImageMsgInterface) (msg : ProjectedSonarImage Info) :
    List (ProjectedSonarImage Info) :=
  if msg.image.dtype ≠ DTYPE_UINT32 then
    [msg]
  else
    let out := clearedCopy msg
    let s := rangeLoop log interface { data := out.image.data, logmin := none, logmax := none }
    [{ out with image := { out.image with data := s.data } }]

/-- Method `sonarImageCallback`: `mkInterface` is the constructor
`SonarImageMsgInterface interface(msg)`. -/
def sonarImageCallback {Info : Type} (log : K → K)
    (mkInterface : ProjectedSonarImage Info → SonarImageMsgInterface)
    (node : SonarPostprocessorNodelet K) (msg : ProjectedSonarImage Info) :
    List (ProjectedSonarImage Info) :=
  sonarImageCallbackWith log node (mkInterface msg) msg

/-- Bytes of all cells, range by range and, within a range, azimuth by azimuth. -/
def cellBytes (log : K → K) (ifc : SonarImageMsgInterface) : List Nat :=
  (List.range ifc.nRanges).flatMap (fun r_idx =>
    (List.range ifc.nAzimuth).map (fun a_idx =>
      cellByte log (ifc.intensity_uint32 ⟨a_idx, r_idx⟩)))

end Callback

/-! ## The formula of the specification, and a sample cell

`specByte` follows the words of the specification (threshold `0.74`); the code is
`cellByte` (threshold the `float` nearest `0.74`). -/

section SampleData

/-- Byte the specification gives for a cell of intensity `I`:
`floor(255 * clamp01((log(max(1, I)) / log(2^32 - 1) - 0.74) / (1 - 0.74)))`. -/
def specByte {K : Type} [LinearOrderedField K] [FloorRing K] (log : K → K) (I : Nat) : Nat :=
  ⌊(255 : K) * min 1 (max 0 ((log ((max 1 I : Nat) : K) / log (2 ^ 32 - 1) - 74 / 100) /
    (1 - 74 / 100)))⌋₊

/-- Intensity of the sample cell. -/
def sampleIntensity : Nat := 14712203

/-- Interface of a one-cell ping whose only cell has intensity `sampleIntensity`. -/
def sampleInterface : SonarImageMsgInterface :=
  { nRanges := 1, nAzimuth := 1, cell := fun _ => sampleIntensity }

/-- A 32-bit message with one cell (the four bytes of `sampleIntensity`). -/
def sampleMsg : ProjectedSonarImage Unit :=
  { info := (),
    image := { is_bigendian := false, dtype := DTYPE_UINT32, beam_count := 1,
               data := [0x8b, 0x7d, 0xe0, 0x00] } }

/-- An 8-bit message, which the callback passes through. -/
def sampleMsg8 : ProjectedSonarImage Unit :=
  { info := (),
    image := { is_bigendian := false, dtype := DTYPE_UINT8, beam_count := 1, data := [7] } }

/-- Interface of a two-by-three ping with intensity `0` in its cell `(a, r) = (1, 1)`. -/
def gridInterface : SonarImageMsgInterface :=
  { nRanges := 2, nAzimuth := 3,
    cell := fun idx => if idx.azimuth = 1 ∧ idx.range = 1 then 0 else 1000 * idx.range + idx.azimuth + 1 }

/-- A stand-in for `log` on the rationals: zero at `1`, positive at `UINT32_MAX`. -/
def ratLog (x : ℚ) : ℚ := x - 1

end SampleData

/-! ## `SonarDrawer` (`SonarDrawer.h`)

The header declares the class; the bodies of `drawRectSonarImage`, of
`CachedMap::operator()`, `CachedMap::create` and `CachedMap::isValid`, and the
class `AbstractSonarInterface`, are not among the sources and follow the
specification.  The numeric type `float` is an arbitrary type `F` with decidable
equality. -/

namespace SonarDrawer

/-- Element types of a `cv::Mat` that the header names, and any other. -/
inductive MatType where
  | CV_8UC3
  | CV_32FC3
  | other (code : Nat)
deriving DecidableEq, Repr

/-- A `cv::Mat`: its shape, its element type and its cells, row by row. -/
structure Mat (Px : Type) where
  rows : Nat
  cols : Nat
  type : MatType
  data : List Px
deriving DecidableEq, Repr

/-- Default-constructed matrix `cv::Mat()`: no rows, no columns, no cells. -/
def Mat.default {Px : Type} : Mat Px :=
  { rows := 0, cols := 0, type := MatType.other 0, data := [] }

/-- Method `cv::Mat::empty()`: the matrix has no cell. -/
def Mat.empty {Px : Type} (m : Mat Px) : Bool :=
  decide (m.rows * m.cols = 0)

/-- Modelled from the spec: the ping source `AbstractSonarInterface`, whose header is
not among the sources.  It exposes `numRanges()`, `numAzimuth()`, `rangeBounds()`,
`azimuthBounds()` and an intensity accessor keyed by `(azimuthIndex, rangeIndex)`. -/
structure AbstractSonarInterface (F : Type) where
  nRanges : Nat
  nAzimuth : Nat
  rangeBounds : F × F
  azimuthBounds : F × F
  intensity : AzimuthRangeIndices → F

/-- Type `MapPair`: `std::pair<cv::Mat, cv::Mat>`. -/
abbrev MapPair (F : Type) : Type := Mat F × Mat F

/-- Struct `CachedMap`: the two maps and the meta-information that validates them. -/
structure CachedMap (F : Type) where
  _scMap1 : Mat F
  _scMap2 : Mat F
  _rangeBounds : F × F
  _azimuthBounds : F × F
  _numRanges : Int
  _numAzimuth : Int
deriving DecidableEq, Repr

/-- Constructor `CachedMap() {;}`.  It assigns no member: the two matrices and the
two pairs are default-constructed (empty matrices, pairs of zeros), and the two
`int` members keep whatever value their storage holds, here `numRanges₀` and
`numAzimuth₀` (both `0` for an object in zero-initialised storage). -/
def CachedMap.fresh {F : Type} [Zero F] (numRanges₀ numAzimuth₀ : Int) : CachedMap F :=
  { _scMap1 := Mat.default, _scMap2 := Mat.default,
    _rangeBounds := (0, 0), _azimuthBounds := (0, 0),
    _numRanges := numRanges₀, _numAzimuth := numAzimuth₀ }

/-- The fingerprint `(rangeBounds, azimuthBounds, numRanges, numAzimuth)` of a ping. -/
def AbstractSonarInterface.fingerprint {F : Type} (ping : AbstractSonarInterface F) :
    (F × F) × (F × F) × Int × Int :=
  (ping.rangeBounds, ping.azimuthBounds, (ping.nRanges : Int), (ping.nAzimuth : Int))

/-- The stored fingerprint of a cache. -/
def CachedMap.fingerprint {F : Type} (c : CachedMap F) : (F × F) × (F × F) × Int × Int :=
  (c._rangeBounds, c._azimuthBounds, c._numRanges, c._numAzimuth)

/-- Modelled from the spec: `CachedMap::isValid`, declared in the header, its body
not among the sources.  "Exact comparison of the ping's current `(rangeBounds,
azimuthBounds, numRanges, numAzimuth)` against stored Cache Metadata", with no
tolerance. -/
def CachedMap.isValid {F : Type} [DecidableEq F] (c : CachedMap F)
    (ping : AbstractSonarInterface F) : Bool :=
  c.fingerprint == ping.fingerprint

/-- Modelled from the spec: `CachedMap::create`, declared in the header, its body not
among the sources.  It builds the tables from the ping geometry alone (`rebuild`,
a function of the fingerprint, stands for the per-pixel polar mapping), stores
them and updates the metadata to the new fingerprint. -/
def CachedMap.create {F : Type} (rebuild : (F × F) × (F × F) × Int × Int → MapPair F)
    (_c : CachedMap F) (ping : AbstractSonarInterface F) : CachedMap F :=
  { _scMap1 := (rebuild ping.fingerprint).1, _scMap2 := (rebuild ping.fingerprint).2,
    _rangeBounds := ping.rangeBounds, _azimuthBounds := ping.azimuthBounds,
    _numRanges := (ping.nRanges : Int), _numAzimuth := (ping.nAzimuth : Int) }

/-- Outcome of one call of `operator()`: the returned pair, the number of times
`create` ran during the call (the rebuild counter), and the cache afterwards. -/
structure GetResult (F : Type) where
  maps : MapPair F
  rebuilds : Nat
  cache : CachedMap F

/-- The state `EMPTY` of the specification, "no tables yet": one of the two stored
matrices is empty, as both are after the constructor. -/
def CachedMap.isEmpty {F : Type} (c : CachedMap F) : Bool :=
  c._scMap1.empty || c._scMap2.empty

/-- Modelled from the spec: the test `operator()` makes before it rebuilds, "if
invalid (including first call from EMPTY)": the cache holds no tables yet, or
`isValid` fails for the ping. -/
def CachedMap.needsRebuild {F : Type} [DecidableEq F] (c : CachedMap F)
    (ping : AbstractSonarInterface F) : Bool :=
  c.isEmpty || !c.isValid ping

/-- Modelled from the spec: `CachedMap::operator()` (`get` in the specification),
declared in the header, its body not among the sources.  "If invalid (including
first call from EMPTY), invoke rebuild; then return the stored Remap Tables." -/
def CachedMap.get {F : Type} [DecidableEq F]
    (rebuild : (F × F) × (F × F) × Int × Int → MapPair F)
    (c : CachedMap F) (ping : AbstractSonarInterface F) : GetResult F :=
  if c.needsRebuild ping then
    let c := c.create rebuild ping
    { maps := (c._scMap1, c._scMap2), rebuilds := 1, cache := c }
  else
    { maps := (c._scMap1, c._scMap2), rebuilds := 0, cache := c }

/-- Modelled from the spec: `SonarDrawer::drawRectSonarImage`, declared in the header,
its body not among the sources.  The output keeps the type of `rectImage` when that
is `8UC3` or `32FC3` and is `8UC3` otherwise; it is allocated as `numRanges` rows by
`numAzimuth` columns; the cell of row `r` and column `a` is the colour of the
sample `(a, r)`. -/
def drawRectSonarImage {F Px : Type} (ping : AbstractSonarInterface F) (colorMap : F → Px)
    (rectImage : Mat Px) : Mat Px :=
  let type := if rectImage.type = MatType.CV_8UC3 ∨ rectImage.type = MatType.CV_32FC3
    then rectImage.type else MatType.CV_8UC3
  { rows := ping.nRanges, cols := ping.nAzimuth, type := type,
    data := (List.range ping.nRanges).flatMap (fun r =>
      (List.range ping.nAzimuth).map (fun a => colorMap (ping.intensity ⟨a, r⟩))) }

end SonarDrawer

/-! ## Facts about the loops -/

section LoopFacts

variable {K : Type} [LinearOrderedField K] [FloorRing K]

theorem foldl_cellStep_data (log : K → K) (ifc : SonarImageMsgInterface) (r_idx : Nat)
    (l : List Nat) (s : LoopState K) :
    (l.foldl (fun s a_idx => cellStep log ifc r_idx a_idx s) s).data =
      s.data ++ l.map (fun a_idx => cellByte log (ifc.intensity_uint32 ⟨a_idx, r_idx⟩)) := by
  induction l generalizing s with
  | nil => simp
  | cons a l ih =>
    rw [List.foldl_cons, ih]
    simp [cellStep, cellByte, scaled]

theorem azimuthLoop_data (log : K → K) (ifc : SonarImageMsgInterface) (r_idx : Nat)
    (s : LoopState K) :
    (azimuthLoop log ifc r_idx s).data =
      s.data ++ (List.range ifc.nAzimuth).map (fun a_idx =>
        cellByte log (ifc.intensity_uint32 ⟨a_idx, r_idx⟩)) :=
  foldl_cellStep_data log ifc r_idx _ s

theorem foldl_azimuthLoop_data (log : K → K) (ifc : SonarImageMsgInterface)
    (l : List Nat) (s : LoopState K) :
    (l.foldl (fun s r_idx => azimuthLoop log ifc r_idx s) s).data =
      s.data ++ l.flatMap (fun r_idx => (List.range ifc.nAzimuth).map (fun a_idx =>
        cellByte log (ifc.intensity_uint32 ⟨a_idx, r_idx⟩))) := by
  induction l generalizing s with
  | nil => simp
  | cons r l ih =>
    rw [List.foldl_cons, ih, azimuthLoop_data]
    simp

theorem rangeLoop_data (log : K → K) (ifc : SonarImageMsgInterface) (s : LoopState K) :
    (rangeLoop log ifc s).data = s.data ++ cellBytes log ifc :=
  foldl_azimuthLoop_data log ifc _ s

theorem length_flatMap_range_map {β : Type} (f : Nat → Nat → β) (m n : Nat) :
    ((List.range n).flatMap (fun r => (List.range m).map (f r))).length = n * m := by
  induction n with
  | zero => simp
  | succ n ih =>
    rw [List.range_succ, List.flatMap_append, List.length_append, ih]
    simp [Nat.succ_mul]

theorem index_flatMap_range_map {β : Type} (f : Nat → Nat → β) (m n r a : Nat)
    (hr : r < n) (ha : a < m) :
    ((List.range n).flatMap (fun r => (List.range m).map (f r)))[r * m + a]? = some (f r a) := by
  induction n with
  | zero => omega
  | succ n ih =>
    rw [List.range_succ, List.flatMap_append]
    by_cases h : r < n
    · have hlt : r * m + a < n * m := by
        calc r * m + a < r * m + m := by omega
          _ = (r + 1) * m := by ring
          _ ≤ n * m := Nat.mul_le_mul_right m h
      rw [List.getElem?_append_left (by rw [length_flatMap_range_map]; exact hlt)]
      exact ih h
    · have hrn : r = n := by omega
      subst hrn
      rw [List.getElem?_append_right (by rw [length_flatMap_range_map]; omega),
        length_flatMap_range_map]
      simp [ha]

theorem length_cellBytes (log : K → K) (ifc : SonarImageMsgInterface) :
    (cellBytes log ifc).length = ifc.nRanges * ifc.nAzimuth :=
  length_flatMap_range_map _ _ _

theorem index_cellBytes (log : K → K) (ifc : SonarImageMsgInterface) (r a : Nat)
    (hr : r < ifc.nRanges) (ha : a < ifc.nAzimuth) :
    (cellBytes log ifc)[r * ifc.nAzimuth + a]? =
      some (cellByte log (ifc.intensity_uint32 ⟨a, r⟩)) :=
  index_flatMap_range_map (fun r a => cellByte log (ifc.intensity_uint32 ⟨a, r⟩)) _ _ r a hr ha

/-- What the callback publishes for a 32-bit message. -/
theorem sonarImageCallbackWith_uint32 {Info : Type} (log : K → K)
    (node : SonarPostprocessorNodelet K) (ifc : SonarImageMsgInterface)
    (msg : ProjectedSonarImage Info) (h : msg.image.dtype = DTYPE_UINT32) :
    sonarImageCallbackWith log node ifc msg =
      [{ info := msg.info,
         image := { is_bigendian := msg.image.is_bigendian, dtype := DTYPE_UINT8,
                    beam_count := msg.image.beam_count, data := cellBytes log ifc } }] := by
  simp [sonarImageCallbackWith, h, clearedCopy, rangeLoop_data]

end LoopFacts

/-! ## Facts about the arithmetic of one cell -/

section CellFacts

variable {K : Type} [LinearOrderedField K]

theorem threshold_pos : (0 : K) < threshold := by
  unfold threshold
  norm_num

theorem threshold_lt_vmax : (threshold : K) < vmax := by
  unfold threshold vmax
  norm_num

/-- The constant `threshold` is the single-precision number nearest `0.74`: it is a
multiple of `2^-24`, the spacing of single-precision numbers between `1/2` and `1`,
and no other multiple is as near to `0.74`. -/
theorem threshold_nearest_single (k : ℤ) :
    (threshold : ℚ) = 12415140 / 2 ^ 24 ∧
      (k ≠ 12415140 → |(74 / 100 : ℚ) - threshold| < |74 / 100 - (k : ℚ) / 2 ^ 24|) := by
  refine ⟨by norm_num [threshold], fun hk => ?_⟩
  have ht : |(74 / 100 : ℚ) - threshold| = 1 / 104857600 := by
    rw [abs_of_nonpos (by norm_num [threshold])]
    norm_num [threshold]
  rw [ht]
  rcases lt_or_gt_of_ne hk with h | h
  · have h₁ : (k : ℚ) ≤ 12415139 := by exact_mod_cast Int.le_sub_one_of_lt h
    rw [abs_of_nonneg (by linarith)]
    linarith
  · have h₁ : (12415141 : ℚ) ≤ k := by exact_mod_cast Int.add_one_le_of_lt h
    rw [abs_of_nonpos (by linarith)]
    linarith

theorem compress_nonneg (v : K) : 0 ≤ compress v :=
  le_min zero_le_one (le_max_left _ _)

theorem compress_le_one (v : K) : compress v ≤ 1 :=
  min_le_left _ _

theorem compress_of_le_threshold (v : K) (h : v ≤ threshold) : compress v = 0 := by
  have hden : (0 : K) < vmax - threshold := sub_pos.mpr threshold_lt_vmax
  have hq : (v - threshold) / (vmax - threshold) ≤ 0 :=
    div_nonpos_of_nonpos_of_nonneg (sub_nonpos.mpr h) hden.le
  simp only [compress]
  rw [max_eq_left hq]
  exact min_eq_right zero_le_one

theorem compress_of_mem (v : K) (h₁ : threshold ≤ v) (h₂ : v ≤ vmax) :
    compress v = (v - threshold) / (vmax - threshold) := by
  have hden : (0 : K) < vmax - threshold := sub_pos.mpr threshold_lt_vmax
  have hq₀ : 0 ≤ (v - threshold) / (vmax - threshold) :=
    div_nonneg (sub_nonneg.mpr h₁) hden.le
  have hq₁ : (v - threshold) / (vmax - threshold) ≤ 1 :=
    (div_le_one hden).mpr (sub_le_sub_right h₂ _)
  simp only [compress]
  rw [max_eq_right hq₀]
  exact min_eq_right hq₁

theorem compress_vmax : compress (vmax : K) = 1 := by
  rw [compress_of_mem _ threshold_lt_vmax.le le_rfl]
  exact div_self (sub_pos.mpr threshold_lt_vmax).ne.symm

theorem scaled_nonneg (log : K → K) (intensity : Nat) : 0 ≤ scaled log intensity :=
  mul_nonneg (Nat.cast_nonneg _) (compress_nonneg _)

theorem scaled_le (log : K → K) (intensity : Nat) :
    scaled log intensity ≤ ((UINT8_MAX : Nat) : K) := by
  have h := mul_le_mul_of_nonneg_left (compress_le_one (normalized log intensity))
    (Nat.cast_nonneg (α := K) UINT8_MAX)
  simpa [scaled] using h

theorem normalized_zero (log : K → K) : normalized log 0 = normalized log 1 := rfl

theorem normalized_one (log : K → K) (hlog1 : log 1 = 0) : normalized log 1 = 0 := by
  simp [normalized, hlog1]

theorem normalized_max (log : K → K) (hlogM : 0 < log ((UINT32_MAX : Nat) : K)) :
    normalized log UINT32_MAX = vmax := by
  have hmax : max 1 UINT32_MAX = UINT32_MAX := by decide
  unfold normalized vmax
  rw [hmax]
  exact div_self hlogM.ne.symm

variable [FloorRing K]

theorem toUInt8_of_le (x : K) (h : x ≤ ((UINT8_MAX : Nat) : K)) : toUInt8 x = ⌊x⌋₊ := by
  have hfl : ⌊x⌋₊ ≤ UINT8_MAX := by
    have := Nat.floor_mono h
    rwa [Nat.floor_natCast] at this
  unfold toUInt8
  exact Nat.mod_eq_of_lt (Nat.lt_succ_of_le hfl)

theorem cellByte_eq_floor (log : K → K) (intensity : Nat) :
    cellByte log intensity = ⌊scaled log intensity⌋₊ :=
  toUInt8_of_le _ (scaled_le log intensity)

theorem cellByte_le (log : K → K) (intensity : Nat) : cellByte log intensity ≤ UINT8_MAX := by
  unfold cellByte toUInt8
  exact Nat.le_of_lt_succ (Nat.mod_lt _ (Nat.succ_pos _))

theorem cellByte_of_le_threshold (log : K → K) (intensity : Nat)
    (h : normalized log intensity ≤ threshold) : cellByte log intensity = 0 := by
  rw [cellByte_eq_floor, scaled, compress_of_le_threshold _ h]
  simp

theorem cellByte_max (log : K → K) (hlogM : 0 < log ((UINT32_MAX : Nat) : K)) :
    cellByte log UINT32_MAX = UINT8_MAX := by
  rw [cellByte_eq_floor, scaled, normalized_max log hlogM, compress_vmax, mul_one,
    Nat.floor_natCast]

end CellFacts

/-! ## A sample cell: the two thresholds told apart -/

section Sample

set_option exponentiation.threshold 100000

theorem sample_pow_lower : (4294967295 : ℕ) ^ 9487 ≤ 14712203 ^ 12750 := by decide

theorem sample_pow_upper : (14712203 : ℕ) ^ 9077 < 4294967295 ^ 6754 := by decide

theorem mul_log_le_of_pow_le (a b p q : ℕ) (ha : 0 < a) (h : a ^ p ≤ b ^ q) :
    (p : ℝ) * Real.log a ≤ q * Real.log b := by
  have h' : (a : ℝ) ^ p ≤ (b : ℝ) ^ q := by exact_mod_cast h
  have hlog := Real.log_le_log (by positivity) h'
  rwa [Real.log_pow, Real.log_pow] at hlog

theorem mul_log_lt_of_pow_lt (a b p q : ℕ) (ha : 0 < a) (h : a ^ p < b ^ q) :
    (p : ℝ) * Real.log a < q * Real.log b := by
  have h' : (a : ℝ) ^ p < (b : ℝ) ^ q := by exact_mod_cast h
  have hlog := Real.log_lt_log (by positivity) h'
  rwa [Real.log_pow, Real.log_pow] at hlog

theorem log_uint32_max_pos : 0 < Real.log ((UINT32_MAX : Nat) : ℝ) :=
  Real.log_pos (by norm_num [UINT32_MAX])

theorem sample_normalized_lower : (9487 / 12750 : ℝ) ≤ normalized Real.log sampleIntensity := by
  have h := mul_log_le_of_pow_le 4294967295 14712203 9487 12750 (by norm_num) sample_pow_lower
  have hM := log_uint32_max_pos
  have hmax : max 1 sampleIntensity = 14712203 := by decide
  unfold normalized
  rw [hmax, div_le_div_iff₀ (by norm_num) hM]
  unfold UINT32_MAX at *
  push_cast at h ⊢
  linarith

theorem sample_normalized_upper : normalized Real.log sampleIntensity < (6754 / 9077 : ℝ) := by
  have h := mul_log_lt_of_pow_lt 14712203 4294967295 9077 6754 (by norm_num) sample_pow_upper
  have hM := log_uint32_max_pos
  have hmax : max 1 sampleIntensity = 14712203 := by decide
  unfold normalized
  rw [hmax, div_lt_div_iff₀ hM (by norm_num)]
  unfold UINT32_MAX at *
  push_cast at h ⊢
  linarith

theorem specByte_eq (I : Nat) :
    specByte Real.log I =
      ⌊(255 : ℝ) * min 1 (max 0 ((normalized Real.log I - 74 / 100) / (1 - 74 / 100)))⌋₊ := by
  have hM : (((UINT32_MAX : Nat) : ℝ)) = 2 ^ 32 - 1 := by norm_num [UINT32_MAX]
  unfold specByte normalized
  rw [hM]

/-- The code pushes `3` for the sample cell. -/
theorem cellByte_sample : cellByte Real.log sampleIntensity = 3 := by
  have lo := sample_normalized_lower
  have hi := sample_normalized_upper
  have ht : (threshold : ℝ) ≤ normalized Real.log sampleIntensity := by
    unfold threshold
    linarith
  have hv : normalized Real.log sampleIntensity ≤ (vmax : ℝ) := by
    unfold vmax
    linarith
  have e : ((UINT8_MAX : Nat) : ℝ) * ((normalized Real.log sampleIntensity - threshold) /
      (vmax - threshold)) =
      255 * 16777216 / 4362076 * normalized Real.log sampleIntensity
        - 255 * 12415140 / 4362076 := by
    unfold threshold vmax UINT8_MAX
    push_cast
    ring
  rw [cellByte_eq_floor, Nat.floor_eq_iff (scaled_nonneg _ _), scaled, compress_of_mem _ ht hv, e]
  constructor
  · norm_num
    linarith
  · norm_num
    linarith

/-- The formula of the specification gives `4` for the sample cell. -/
theorem specByte_sample : specByte Real.log sampleIntensity = 4 := by
  have lo := sample_normalized_lower
  have hi := sample_normalized_upper
  have hx₀ : 0 ≤ (normalized Real.log sampleIntensity - 74 / 100) / (1 - 74 / 100) :=
    div_nonneg (by linarith) (by norm_num)
  have hx₁ : (normalized Real.log sampleIntensity - 74 / 100) / (1 - 74 / 100) ≤ 1 := by
    rw [div_le_one (by norm_num)]
    linarith
  have e : (255 : ℝ) * ((normalized Real.log sampleIntensity - 74 / 100) / (1 - 74 / 100)) =
      25500 / 26 * normalized Real.log sampleIntensity - 255 * 74 / 26 := by
    ring
  rw [specByte_eq, max_eq_right hx₀, min_eq_right hx₁, e,
    Nat.floor_eq_iff (by norm_num; linarith)]
  constructor
  · norm_num
    linarith
  · norm_num
    linarith

theorem log_max_one (I : Nat) : Real.log ((max 1 I : Nat) : ℝ) = Real.log (I : ℝ) := by
  rcases Nat.eq_zero_or_pos I with h | h
  · subst h
    simp
  · rw [max_eq_right h]

theorem scaled_real_eq (I : Nat) :
    scaled Real.log I =
      255 * min 1 (max 0 ((Real.log ((max 1 I : Nat) : ℝ) / Real.log (2 ^ 32 - 1)
        - 12415140 / 16777216) / (1 - 12415140 / 16777216))) := by
  have hM : (((UINT32_MAX : Nat) : ℝ)) = 2 ^ 32 - 1 := by norm_num [UINT32_MAX]
  unfold scaled compress normalized threshold vmax UINT8_MAX
  rw [hM]
  push_cast
  rfl

theorem mem_cellBytes_le {K : Type} [LinearOrderedField K] [FloorRing K] (log : K → K)
    (ifc : SonarImageMsgInterface) (b : Nat) (hb : b ∈ cellBytes log ifc) : b ≤ UINT8_MAX := by
  unfold cellBytes at hb
  rw [List.mem_flatMap] at hb
  obtain ⟨r, -, hb⟩ := hb
  rw [List.mem_map] at hb
  obtain ⟨a, -, rfl⟩ := hb
  exact cellByte_le log _

theorem cellBytes_sample : cellBytes Real.log sampleInterface = [3] := by
  have hI : sampleInterface.intensity_uint32 ⟨0, 0⟩ = sampleIntensity := by decide
  have h : cellBytes Real.log sampleInterface =
      [cellByte Real.log (sampleInterface.intensity_uint32 ⟨0, 0⟩)] := rfl
  rw [h, hI, cellByte_sample]

end Sample

/-! ## The claims about `sonarImageCallback` -/

section CallbackClaims

variable {K : Type} [LinearOrderedField K] [FloorRing K] {Info : Type}

/-- Claim C1.  In a 32-bit message, a cell of intensity `0` is clamped to `1` before
the logarithm is taken (`max 1 0 = 1`); its normalized value `v` is `0`, hence
non-negative; and the byte the callback writes for that cell, at position
`r * nAzimuth + a` of the published data, is `0`, which is also the byte of a cell of
intensity `1`.  The library `log` is any function with `log 1 = 0` that is positive
at `UINT32_MAX`. -/
theorem zero_intensity_byte (log : K → K) (hlog1 : log 1 = 0)
    (hlogM : 0 < log ((UINT32_MAX : Nat) : K))
    (mkInterface : ProjectedSonarImage Info → SonarImageMsgInterface)
    (node : SonarPostprocessorNodelet K) (msg : ProjectedSonarImage Info)
    (hdtype : msg.image.dtype = DTYPE_UINT32) (r a : Nat)
    (hr : r < (mkInterface msg).nRanges) (ha : a < (mkInterface msg).nAzimuth)
    (hzero : (mkInterface msg).intensity_uint32 ⟨a, r⟩ = 0) :
    max 1 0 = 1 ∧ normalized log 0 = 0 ∧ 0 ≤ normalized log 0 ∧
      log ((UINT32_MAX : Nat) : K) ≠ 0 ∧
      (∃ out, sonarImageCallback log mkInterface node msg = [out] ∧
        out.image.data[r * (mkInterface msg).nAzimuth + a]? = some 0) ∧
      cellByte log 1 = 0 := by
  have hv : normalized log 0 = 0 := normalized_one log hlog1
  have hb : cellByte log 1 = 0 :=
    cellByte_of_le_threshold log 1 (by rw [normalized_one log hlog1]; exact threshold_pos.le)
  refine ⟨rfl, hv, hv.ge, hlogM.ne.symm, ⟨_, sonarImageCallbackWith_uint32 log node _ msg hdtype, ?_⟩, hb⟩
  show (cellBytes log (mkInterface msg))[r * (mkInterface msg).nAzimuth + a]? = some 0
  rw [index_cellBytes log _ r a hr ha, hzero]
  exact congrArg some hb

/-- Claim C6.  A message whose `image.dtype` is not `DTYPE_UINT32` is published once,
as it is: the list of published messages is the input message alone. -/
theorem passthrough_non_uint32 (log : K → K)
    (mkInterface : ProjectedSonarImage Info → SonarImageMsgInterface)
    (node : SonarPostprocessorNodelet K) (msg : ProjectedSonarImage Info)
    (hdtype : msg.image.dtype ≠ DTYPE_UINT32) :
    sonarImageCallback log mkInterface node msg = [msg] := by
  simp [sonarImageCallback, sonarImageCallbackWith, hdtype]

/-- Claim C7.  A message whose `image.dtype` is `DTYPE_UINT32` is answered by exactly
one published message `out`: its `image.dtype` is `DTYPE_UINT8`; its `image.data` has
`nRanges * nAzimuth` entries, each a byte; the data do not depend on the bytes the
input carried (the same `out` results whatever `image.data` the input has, the
interface being the same); and `info`, `image.is_bigendian` and `image.beam_count`
are those of the input. -/
theorem uint32_output_frame (log : K → K)
    (mkInterface : ProjectedSonarImage Info → SonarImageMsgInterface)
    (node : SonarPostprocessorNodelet K) (msg : ProjectedSonarImage Info)
    (hdtype : msg.image.dtype = DTYPE_UINT32) :
    ∃ out, sonarImageCallback log mkInterface node msg = [out] ∧
      out.image.dtype = DTYPE_UINT8 ∧
      out.image.data.length = (mkInterface msg).nRanges * (mkInterface msg).nAzimuth ∧
      (∀ b ∈ out.image.data, b ≤ UINT8_MAX) ∧
      (∀ bytes : List Nat, sonarImageCallbackWith log node (mkInterface msg)
        { msg with image := { msg.image with data := bytes } } = [out]) ∧
      out.info = msg.info ∧
      out.image.is_bigendian = msg.image.is_bigendian ∧
      out.image.beam_count = msg.image.beam_count := by
  refine ⟨_, sonarImageCallbackWith_uint32 log node _ msg hdtype, rfl,
    length_cellBytes log _, fun b hb => mem_cellBytes_le log _ b hb, fun bytes => ?_,
    rfl, rfl, rfl⟩
  exact sonarImageCallbackWith_uint32 log node _ _ hdtype

/-- Claim C9.  The published messages do not depend on the parameters `gain_` and
`gamma_`: two nodelets, whatever their `gain_` and `gamma_`, publish the same list
of messages for the same input. -/
theorem gain_gamma_irrelevant (log : K → K)
    (mkInterface : ProjectedSonarImage Info → SonarImageMsgInterface)
    (node₁ node₂ : SonarPostprocessorNodelet K) (msg : ProjectedSonarImage Info) :
    sonarImageCallback log mkInterface node₁ msg =
      sonarImageCallback log mkInterface node₂ msg :=
  rfl

/-- Witness of claim C1: the cell `(a, r) = (1, 1)` of the two-by-three ping, with
the natural logarithm of the reals as `log`. -/
theorem zero_intensity_byte_witness :
    max 1 0 = 1 ∧ normalized Real.log 0 = 0 ∧ 0 ≤ normalized Real.log 0 ∧
      Real.log ((UINT32_MAX : Nat) : ℝ) ≠ 0 ∧
      (∃ out, sonarImageCallback Real.log (fun _ => gridInterface) ⟨1, 0⟩ sampleMsg = [out] ∧
        out.image.data[1 * gridInterface.nAzimuth + 1]? = some 0) ∧
      cellByte Real.log 1 = 0 :=
  zero_intensity_byte Real.log Real.log_one log_uint32_max_pos
    (fun _ => gridInterface) ⟨1, 0⟩ sampleMsg rfl 1 1 (by decide) (by decide) (by decide)

/-- Witness of claim C6: an 8-bit message is published as it is. -/
theorem passthrough_non_uint32_witness :
    sampleMsg8.image.dtype ≠ DTYPE_UINT32 ∧
      sonarImageCallback ratLog (fun _ => gridInterface) ⟨1, 0⟩ sampleMsg8 = [sampleMsg8] :=
  ⟨by decide,
    passthrough_non_uint32 ratLog (fun _ => gridInterface) ⟨1, 0⟩ sampleMsg8 (by decide)⟩

/-- Witness of claim C7: the 32-bit sample message with the two-by-three interface. -/
theorem uint32_output_frame_witness :
    sampleMsg.image.dtype = DTYPE_UINT32 ∧
      ∃ out, sonarImageCallback ratLog (fun _ => gridInterface) ⟨1, 0⟩ sampleMsg = [out] ∧
        out.image.dtype = DTYPE_UINT8 ∧
        out.image.data.length = gridInterface.nRanges * gridInterface.nAzimuth ∧
        (∀ b ∈ out.image.data, b ≤ UINT8_MAX) ∧
        (∀ bytes : List Nat, sonarImageCallbackWith ratLog ⟨1, 0⟩ gridInterface
          { sampleMsg with image := { sampleMsg.image with data := bytes } } = [out]) ∧
        out.info = sampleMsg.info ∧
        out.image.is_bigendian = sampleMsg.image.is_bigendian ∧
        out.image.beam_count = sampleMsg.image.beam_count :=
  ⟨rfl, uint32_output_frame ratLog (fun _ => gridInterface) ⟨1, 0⟩ sampleMsg rfl⟩

end CallbackClaims

/-! ## The published byte as a formula -/

section ByteFormula

variable {Info : Type}

/-- Claim C8, as the specification words it (threshold `0.74`), fails.  For the
one-cell 32-bit message of intensity `14712203` the callback publishes the byte `3`,
while `floor(255 * clamp01((ln(max(1, I)) / ln(2^32 - 1) - 0.74) / (1 - 0.74)))` is `4`. -/
theorem spec_formula_counterexample :
    sonarImageCallback Real.log (fun _ => sampleInterface) ⟨1, 0⟩ sampleMsg =
        [{ info := (),
           image := { is_bigendian := false, dtype := DTYPE_UINT8, beam_count := 1,
                      data := [3] } }] ∧
      sampleInterface.intensity_uint32 ⟨0, 0⟩ = 14712203 ∧
      ⌊(255 : ℝ) * min 1 (max 0 ((Real.log ((max 1 14712203 : Nat) : ℝ) / Real.log (2 ^ 32 - 1)
        - 74 / 100) / (1 - 74 / 100)))⌋₊ = 4 := by
  refine ⟨?_, by decide, specByte_sample⟩
  have h := sonarImageCallbackWith_uint32 Real.log ⟨1, 0⟩ sampleInterface sampleMsg rfl
  rw [cellBytes_sample] at h
  exact h

/-- Claim C8, amended.  For a 32-bit message and indices `r < nRanges`,
`a < nAzimuth`, let `I` be the intensity of the cell `(a, r)` and
`x = 255 * clamp01((ln(max(1, I)) / ln(2^32 - 1) - t) / (1 - t))` in exact real
arithmetic, with `t = 12415140 / 2^24` the value of `float threshold = 0.74`.  Then
`0 ≤ x ≤ 255`, the published byte at position `r * nAzimuth + a` is `floor x`,
`I = 2^32 - 1` gives `255`, and every `I` with `ln I / ln(2^32 - 1) ≤ 0.74` gives `0`. -/
theorem compressed_byte_formula
    (mkInterface : ProjectedSonarImage Info → SonarImageMsgInterface)
    (node : SonarPostprocessorNodelet ℝ) (msg : ProjectedSonarImage Info)
    (hdtype : msg.image.dtype = DTYPE_UINT32) (r a : Nat)
    (hr : r < (mkInterface msg).nRanges) (ha : a < (mkInterface msg).nAzimuth) :
    ∃ (out : ProjectedSonarImage Info) (x : ℝ),
      sonarImageCallback Real.log mkInterface node msg = [out] ∧
      x = 255 * min 1 (max 0
        ((Real.log ((max 1 ((mkInterface msg).intensity_uint32 ⟨a, r⟩) : Nat) : ℝ) /
            Real.log (2 ^ 32 - 1) - 12415140 / 16777216) / (1 - 12415140 / 16777216))) ∧
      0 ≤ x ∧ x ≤ 255 ∧
      out.image.data[r * (mkInterface msg).nAzimuth + a]? = some ⌊x⌋₊ ∧
      ((mkInterface msg).intensity_uint32 ⟨a, r⟩ = 2 ^ 32 - 1 → ⌊x⌋₊ = 255) ∧
      (Real.log ((mkInterface msg).intensity_uint32 ⟨a, r⟩ : ℝ) / Real.log (2 ^ 32 - 1)
          ≤ 74 / 100 → ⌊x⌋₊ = 0) := by
  have hM : (((UINT32_MAX : Nat) : ℝ)) = 2 ^ 32 - 1 := by norm_num [UINT32_MAX]
  have h255 : (((UINT8_MAX : Nat) : ℝ)) = 255 := by norm_num [UINT8_MAX]
  refine ⟨_, scaled Real.log ((mkInterface msg).intensity_uint32 ⟨a, r⟩),
    sonarImageCallbackWith_uint32 Real.log node _ msg hdtype, scaled_real_eq _,
    scaled_nonneg _ _, ?_, ?_, ?_, ?_⟩
  · rw [← h255]
    exact scaled_le _ _
  · show (cellBytes Real.log (mkInterface msg))[r * (mkInterface msg).nAzimuth + a]? = _
    rw [index_cellBytes Real.log _ r a hr ha, cellByte_eq_floor]
  · intro hI
    have hI' : (mkInterface msg).intensity_uint32 ⟨a, r⟩ = UINT32_MAX := by
      rw [hI]
      decide
    rw [hI', ← cellByte_eq_floor, cellByte_max Real.log log_uint32_max_pos]
    rfl
  · intro hI
    rw [← cellByte_eq_floor]
    apply cellByte_of_le_threshold
    unfold normalized threshold
    rw [log_max_one, hM]
    refine hI.trans ?_
    norm_num

/-- Witness of claim C8 (amended): the one-cell message of intensity `14712203`. -/
theorem compressed_byte_formula_witness :
    ∃ (out : ProjectedSonarImage Unit) (x : ℝ),
      sonarImageCallback Real.log (fun _ => sampleInterface) ⟨1, 0⟩ sampleMsg = [out] ∧
      x = 255 * min 1 (max 0
        ((Real.log ((max 1 (sampleInterface.intensity_uint32 ⟨0, 0⟩) : Nat) : ℝ) /
            Real.log (2 ^ 32 - 1) - 12415140 / 16777216) / (1 - 12415140 / 16777216))) ∧
      0 ≤ x ∧ x ≤ 255 ∧
      out.image.data[0 * sampleInterface.nAzimuth + 0]? = some ⌊x⌋₊ ∧
      (sampleInterface.intensity_uint32 ⟨0, 0⟩ = 2 ^ 32 - 1 → ⌊x⌋₊ = 255) ∧
      (Real.log (sampleInterface.intensity_uint32 ⟨0, 0⟩ : ℝ) / Real.log (2 ^ 32 - 1)
          ≤ 74 / 100 → ⌊x⌋₊ = 0) :=
  compressed_byte_formula (fun _ => sampleInterface) ⟨1, 0⟩ sampleMsg rfl 0 0
    (by decide) (by decide)

end ByteFormula

/-! ## The claims about `SonarDrawer` -/

namespace SonarDrawer

section CacheFacts

variable {F : Type}

theorem isEmpty_fresh [Zero F] (numRanges₀ numAzimuth₀ : Int) :
    (CachedMap.fresh numRanges₀ numAzimuth₀ : CachedMap F).isEmpty = true :=
  rfl

variable [DecidableEq F]

theorem isValid_eq_true_iff (c : CachedMap F) (ping : AbstractSonarInterface F) :
    c.isValid ping = true ↔ c.fingerprint = ping.fingerprint := by
  simp [CachedMap.isValid]

theorem get_of_rebuild (rebuild : (F × F) × (F × F) × Int × Int → MapPair F)
    (c : CachedMap F) (ping : AbstractSonarInterface F) (h : c.needsRebuild ping = true) :
    c.get rebuild ping =
      { maps := rebuild ping.fingerprint, rebuilds := 1, cache := c.create rebuild ping } := by
  simp [CachedMap.get, h, CachedMap.create]

end CacheFacts

section CacheClaims

variable {F : Type} [DecidableEq F]

/-- Claim C2.  For every cache state and every ping, `isValid` is true exactly when
each stored metadata field equals the field of the ping: `_rangeBounds`,
`_azimuthBounds`, `_numRanges` and `_numAzimuth`, compared for equality with no
tolerance. -/
theorem isValid_iff_metadata_eq (c : CachedMap F) (ping : AbstractSonarInterface F) :
    c.isValid ping = true ↔
      c._rangeBounds = ping.rangeBounds ∧ c._azimuthBounds = ping.azimuthBounds ∧
        c._numRanges = (ping.nRanges : Int) ∧ c._numAzimuth = (ping.nAzimuth : Int) := by
  rw [isValid_eq_true_iff]
  simp only [CachedMap.fingerprint, AbstractSonarInterface.fingerprint, Prod.mk.injEq]

/-- Claim C3.  For every ping, and whatever values the two unassigned `int` members
hold, the first call of `operator()` on a freshly constructed cache finds the cache
in the state `EMPTY`, judges it invalid, runs `create` once, and returns the tables
that `create` built for the ping; the cache then stores the fingerprint of the
ping. -/
theorem fresh_get_creates [Zero F] (rebuild : (F × F) × (F × F) × Int × Int → MapPair F)
    (numRanges₀ numAzimuth₀ : Int) (ping : AbstractSonarInterface F) :
    (CachedMap.fresh numRanges₀ numAzimuth₀ : CachedMap F).isEmpty = true ∧
      (CachedMap.fresh numRanges₀ numAzimuth₀ : CachedMap F).needsRebuild ping = true ∧
      ((CachedMap.fresh numRanges₀ numAzimuth₀).get rebuild ping).rebuilds = 1 ∧
      ((CachedMap.fresh numRanges₀ numAzimuth₀).get rebuild ping).maps =
        rebuild ping.fingerprint ∧
      ((CachedMap.fresh numRanges₀ numAzimuth₀).get rebuild ping).cache =
        (CachedMap.fresh numRanges₀ numAzimuth₀).create rebuild ping ∧
      ((CachedMap.fresh numRanges₀ numAzimuth₀).get rebuild ping).cache.fingerprint =
        ping.fingerprint := by
  have hn : (CachedMap.fresh numRanges₀ numAzimuth₀ : CachedMap F).needsRebuild ping = true := by
    simp [CachedMap.needsRebuild, isEmpty_fresh]
  rw [get_of_rebuild rebuild _ ping hn]
  exact ⟨isEmpty_fresh _ _, hn, rfl, rfl, rfl, rfl⟩

end CacheClaims

section RectClaims

variable {F Px : Type}

/-- Claim C5.  For every ping and every supplied `rectImage`, whatever its size and
type, the image `drawRectSonarImage` returns has `numRanges` rows and `numAzimuth`
columns and one cell for each pair of a row and a column; it is empty exactly when
`numRanges` or `numAzimuth` is `0`; the function is total, so no error arises. -/
theorem drawRectSonarImage_shape (ping : AbstractSonarInterface F) (colorMap : F → Px)
    (rectImage : Mat Px) :
    (drawRectSonarImage ping colorMap rectImage).rows = ping.nRanges ∧
      (drawRectSonarImage ping colorMap rectImage).cols = ping.nAzimuth ∧
      (drawRectSonarImage ping colorMap rectImage).data.length = ping.nRanges * ping.nAzimuth ∧
      ((drawRectSonarImage ping colorMap rectImage).empty = true ↔
        ping.nRanges = 0 ∨ ping.nAzimuth = 0) := by
  refine ⟨rfl, rfl, length_flatMap_range_map _ _ _, ?_⟩
  simp [drawRectSonarImage, Mat.empty]

end RectClaims

end SonarDrawer

end SonarImageProc
